import Mathlib

/-!
Verification development for the Project_Exporter repository.

The definitions below are a shallow embedding of the export engine in
`src/main.py` (class `ProjectExportTool`).  Pure string/path manipulation
is translated function by function; the filesystem is modelled as an
explicit tree value (`FSList`) representing the directory
state at the moment the walk runs, and every filesystem read result is
part of that value (`FileData.read` is the outcome of
`open(filepath, encoding="utf-8").read()`: either the decoded text or the
exception message).  Exceptions escaping a function are modelled with
`Except String`.
-/

set_option maxRecDepth 100000

namespace ProjectExporter

/-! ## POSIX path helpers (`os.path` on a POSIX host) -/

/-- Characters after the last slash of a character list.  Models the posix
`os.path.basename`: everything after the final `/` (empty for a path that
ends in a slash). -/
def basenameList : List Char → List Char
  | [] => []
  | c :: t =>
    if c = '/' then basenameList t
    else if ('/' : Char) ∈ t then basenameList t
    else c :: t

/-- Models posix `os.path.basename`. -/
def basename (p : String) : String := ⟨basenameList p.toList⟩

/-- Models the two-argument posix `os.path.join`. -/
def joinPath (a b : String) : String :=
  if b.toList.take 1 = ['/'] then b
  else if a.toList = [] || a.toList.getLast? = some '/' then a ++ b
  else a ++ "/" ++ b

/-- Does `s` end with `suf`?  (`str.endswith`.) -/
def strEndsWith (s suf : String) : Bool := suf.toList.isSuffixOf s.toList

/-- Split a character list on `/`, keeping empty components, as
`path.split("/")` does in Python. -/
def splitSlash : List Char → List (List Char)
  | [] => [[]]
  | '/' :: t => [] :: splitSlash t
  | c :: t =>
    match splitSlash t with
    | [] => [[c]]
    | h :: r => (c :: h) :: r

/-- Models posix `os.path.normpath`: collapse repeated separators and
resolve `.` / `..` components lexically, preserving one (or exactly two)
leading slashes. -/
def normpath (p : String) : String :=
  if p = "" then "." else
  let l := p.toList
  let slashes : Nat :=
    if l.take 1 = ['/'] then
      if l.take 2 = ['/', '/'] && l.take 3 ≠ ['/', '/', '/'] then 2 else 1
    else 0
  let comps := splitSlash l
  let newComps := comps.foldl (fun acc comp =>
    if comp = [] || comp = ['.'] then acc
    else if comp ≠ ['.', '.'] || (slashes = 0 && acc = []) ||
        (acc ≠ [] && acc.getLast? = some ['.', '.']) then acc ++ [comp]
    else if acc ≠ [] then acc.dropLast else acc) []
  let joined := List.replicate slashes '/' ++
    (newComps.intersperse ['/']).flatten
  if joined = [] then "." else ⟨joined⟩

/-- Number of leading components shared by two component lists (the
`os.path.commonprefix` step inside `relpath`). -/
def commonLen : List (List Char) → List (List Char) → Nat
  | a :: as, b :: bs => if a = b then commonLen as bs + 1 else 0
  | _, _ => 0

/-- Nonempty components of a path, as `[x for x in p.split(sep) if x]`. -/
def pathComps (p : String) : List (List Char) :=
  (splitSlash (normpath p).toList).filter (· ≠ [])

/-- Models posix `os.path.relpath(path, start)` for absolute arguments
(for which the current working directory is irrelevant:
`abspath` reduces to `normpath`). -/
def relpath (path start : String) : String :=
  let pl := pathComps path
  let sl := pathComps start
  let i := commonLen sl pl
  let rel := List.replicate (sl.length - i) ['.', '.'] ++ pl.drop i
  if rel = [] then "." else ⟨(rel.intersperse ['/']).flatten⟩

/-- The extension of a path (including the dot), per posix
`os.path.splitext`: the part of the final path segment from its last dot,
unless every character before that dot is itself a dot. -/
def splitextExt (p : String) : String :=
  let b := basenameList p.toList
  let postRev := b.reverse.takeWhile (· ≠ '.')
  if postRev.length = b.length then ""
  else
    let pre := b.take (b.length - postRev.length - 1)
    if pre.all (· = '.') then "" else ⟨'.' :: postRev.reverse⟩

/-- ASCII lowering of a string, modelling `str.lower()` on the ASCII
extensions this program deals with. -/
def asciiLower (s : String) : String :=
  ⟨s.toList.map fun c => if 'A' ≤ c && c ≤ 'Z' then Char.ofNat (c.toNat + 32) else c⟩

/-- Count occurrences of a character, as `str.count` for a one-character
needle. -/
def countChar (s : String) (c : Char) : Nat := s.toList.count c

/-- Replace every backslash by a forward slash; models
`s.replace("\x5c", "/")` (a one-character pattern, hence a plain map). -/
def slashify (s : String) : String :=
  ⟨s.toList.map fun c => if c = '\\' then '/' else c⟩

/-- Does `pat` occur as a contiguous sublist anywhere in `s`? -/
def hasOcc (pat : List Char) : List Char → Bool
  | [] => pat = []
  | c :: t => pat.isPrefixOf (c :: t) || hasOcc pat t

/-- Fuel-driven core of `deleteOcc`; the fuel is always instantiated with
the length of the scanned list, which suffices because every step
consumes at least one character. -/
def deleteOccAux (pat : List Char) : Nat → List Char → List Char
  | _, [] => []
  | 0, s => s
  | fuel + 1, c :: t =>
    if pat ≠ [] && pat.isPrefixOf (c :: t) then
      deleteOccAux pat fuel ((c :: t).drop pat.length)
    else c :: deleteOccAux pat fuel t

/-- Delete every occurrence of `pat` from `s`, scanning left to right
without overlap; models Python `s.replace(pat, "")` for nonempty `pat`
(for the empty pattern Python also returns `s` unchanged when the
replacement is empty). -/
def deleteOcc (pat s : List Char) : List Char := deleteOccAux pat s.length s

/-! ## Shell-glob matching (`fnmatch.fnmatch` on a POSIX host, where
`os.path.normcase` is the identity) -/

/-- Scan for the closing `]` of a bracket expression; returns the class
body and the remainder, or `none` when the bracket is unterminated. -/
def scanClose : List Char → Option (List Char × List Char)
  | [] => none
  | ']' :: t => some ([], t)
  | c :: t => (scanClose t).map fun br => (c :: br.1, br.2)

/-- Parse a bracket expression (the characters after `[`): an optional
leading `!` negates, and a `]` immediately after `[` or `[!` is a literal
member.  Mirrors the index dance in `fnmatch.translate`. -/
def splitClass (l : List Char) : Option (Bool × List Char × List Char) :=
  match l with
  | '!' :: ']' :: u => (scanClose u).map fun br => (true, ']' :: br.1, br.2)
  | '!' :: t => (scanClose t).map fun br => (true, br.1, br.2)
  | ']' :: u => (scanClose u).map fun br => (false, ']' :: br.1, br.2)
  | t => (scanClose t).map fun br => (false, br.1, br.2)

/-- Membership of a character in a bracket-expression body, read greedily
left to right exactly as the regex engine reads the class
`fnmatch.translate` produces: `a-b` is a range (empty when reversed), a
dash that cannot form a range is a literal. -/
def classBody : List Char → Char → Bool
  | a :: '-' :: b :: rest, c => (a ≤ c && c ≤ b) || classBody rest c
  | a :: rest, c => a == c || classBody rest c
  | [], _ => false

/-- One token of a shell glob pattern. -/
inductive GlobTok where
  | star : GlobTok
  | qmark : GlobTok
  | cls (negated : Bool) (body : List Char) : GlobTok
  | lit (c : Char) : GlobTok
deriving DecidableEq

/-- Fuel-driven tokenizer for glob patterns; fuel is the pattern length,
which suffices because every token consumes at least one character. -/
def parseGlobAux : Nat → List Char → List GlobTok
  | 0, _ => []
  | _ + 1, [] => []
  | fuel + 1, '*' :: t => .star :: parseGlobAux fuel t
  | fuel + 1, '?' :: t => .qmark :: parseGlobAux fuel t
  | fuel + 1, '[' :: t =>
    match splitClass t with
    | some (neg, body, rest) => .cls neg body :: parseGlobAux fuel rest
    | none => .lit '[' :: parseGlobAux fuel t
  | fuel + 1, c :: t => .lit c :: parseGlobAux fuel t

/-- Tokenize a glob pattern. -/
def parseGlob (l : List Char) : List GlobTok := parseGlobAux l.length l

/-- Match a token list against a name: `*` matches any (possibly empty)
run of characters, `?` any single character, a class one character from
(or outside) its body, a literal itself. -/
def tokMatch : List GlobTok → List Char → Bool
  | [], s => s.isEmpty
  | .star :: p, s => s.tails.any fun t => tokMatch p t
  | .qmark :: p, s =>
    match s with
    | [] => false
    | _ :: s' => tokMatch p s'
  | .cls neg body :: p, s =>
    match s with
    | [] => false
    | c :: s' => (neg != classBody body c) && tokMatch p s'
  | .lit c :: p, s =>
    match s with
    | d :: s' => c == d && tokMatch p s'
    | [] => false

/-- Models `fnmatch.fnmatch(name, pattern)` (POSIX: `normcase` is the
identity, so this coincides with `fnmatchcase`). -/
def fnmatch (name pattern : String) : Bool :=
  tokMatch (parseGlob pattern.toList) name.toList

/-! ## Ignore patterns (`ProjectExportTool`) -/

/-- The class constant `DEFAULT_IGNORE_PATTERNS`.  The Python value is a
`set`; it is modelled as a list, and every use below is
order-insensitive (`any` / membership). -/
def DEFAULT_IGNORE_PATTERNS : List String :=
  [".git", ".gitignore", "__pycache__", "*.pyc", ".DS_Store",
   "node_modules", ".idea", ".vscode", "*.log", "*.tmp", "*.temp",
   "*.swp", "~*", "Thumbs.db", "desktop.ini"]

/-- `ProjectExportTool.should_ignore`: take the basename of the path and
test it against every pattern with `fnmatch`. -/
def should_ignore (patterns : List String) (path : String) : Bool :=
  patterns.any fun pattern => fnmatch (basename path) pattern

/-- `ProjectExportTool.toggle_ignore_patterns`: when the checkbox state
is `Qt.Checked` the pattern set becomes a copy of the defaults, otherwise
it is cleared in place.  `checked` models `state == Qt.Checked`. -/
def toggle_ignore_patterns (checked : Bool) (_patterns : List String) :
    List String :=
  if checked then DEFAULT_IGNORE_PATTERNS else []

/-! ## Filesystem model

A directory snapshot at the moment `os.walk` runs.  Reading a file
(`open(filepath, encoding="utf-8").read()`) is a filesystem event, so its
outcome is data: `Except.ok text` for a successful open-read-decode,
`Except.error msg` for any raised exception (`OSError`,
`UnicodeDecodeError`, ...) with `msg` the text `str(e)` produces.
`size` and `mtimeIso` model `os.stat` results
(`st_size` and `datetime.fromtimestamp(st_mtime).isoformat()`). -/

structure FileData where
  read : Except String String
  size : Nat
  mtimeIso : String

/-- A directory listing: a sequence of entries, each either a file with
its `FileData` or a subdirectory with its own listing.  (A rose tree in
sequence form: `rest` is the remainder of the same listing, in the order
the filesystem enumerates entries.) -/
inductive FSList where
  | nil : FSList
  | file (name : String) (data : FileData) (rest : FSList) : FSList
  | dir (name : String) (children : FSList) (rest : FSList) : FSList

/-- The files of one directory level, in enumeration order (`os.walk`
keeps the order the filesystem yields within the dirs/nondirs split). -/
def filesOf : FSList → List (String × FileData)
  | .nil => []
  | .file n d rest => (n, d) :: filesOf rest
  | .dir _ _ rest => filesOf rest

/-- The walk entries contributed strictly below a directory whose path is
the first argument: for each subdirectory of the listing (in enumeration
order) its own `(dirpath, files)` entry followed, depth first, by its
subtree's entries. -/
def walkSubdirs (dirpath : String) : FSList →
    List (String × List (String × FileData))
  | .nil => []
  | .file _ _ rest => walkSubdirs dirpath rest
  | .dir n cs rest =>
    (joinPath dirpath n, filesOf cs) :: (walkSubdirs (joinPath dirpath n) cs
      ++ walkSubdirs dirpath rest)

/-- `os.walk(dirpath)` over the snapshot: yields `(dirpath, files)` for
the directory itself, then recursively for each subdirectory in
enumeration order (top-down). -/
def walk (dirpath : String) (children : FSList) :
    List (String × List (String × FileData)) :=
  (dirpath, filesOf children) :: walkSubdirs dirpath children

/-! ## Content serialization (`write_file_content`,
`write_file_content_llm` and friends) -/

/-- `ProjectExportTool._is_text_file`: Python checks whether
`content.encode("utf-8")` raises `UnicodeError`, which for a `str`
happens exactly when it contains a surrogate code point.  The check is
kept verbatim here; note that a string produced by utf-8 *decoding* can
never contain one (Lean `Char` carries that invariant), which is proved
below. -/
def _is_text_file (content : String) : Bool :=
  content.toList.all fun c => !(0xD800 ≤ c.toNat && c.toNat ≤ 0xDFFF)

/-- `ProjectExportTool._get_semantic_type`: extension lookup (the
`content` argument is accepted and ignored, as in the source). -/
def _get_semantic_type (ext : String) (_content : String) : String :=
  if ext ∈ [".py", ".js", ".java", ".cpp", ".cs"] then "source_code"
  else if ext ∈ [".md", ".txt", ".rst"] then "documentation"
  else if ext ∈ [".json", ".yaml", ".yml", ".xml"] then "data"
  else if ext ∈ [".jpg", ".png", ".gif", ".svg"] then "image"
  else if ext ∈ [".html", ".css"] then "web"
  else if ext ∈ [".conf", ".ini", ".env"] then "configuration"
  else "unknown"

/-- A file record as built by `write_file_content_llm` (a Python dict).
`file_path` is present in both the success and the error shape.  For
`content`, `some` is the decoded text and `none` is JSON null (the error
shape stores `"content": None`).  For every other field, `some` means the
key is present and `none` that the dict has no such key (the error shape
carries only `file_path`, `error`, `content`). -/
structure LLMChunk where
  file_path : String
  file_type : Option String := none
  size_bytes : Option Nat := none
  last_modified : Option String := none
  semantic_type : Option String := none
  content_preview : Option String := none
  content_size : Option Nat := none
  content : Option String := none
  metadata_is_binary : Option Bool := none
  metadata_line_count : Option Nat := none
  metadata_extension : Option String := none
  error : Option String := none
deriving DecidableEq

/-- `ProjectExportTool.write_file_content_llm` (the `f` parameter is
never written to in the source and is dropped).  A successful read
produces the full record; any exception produces the
`{file_path, error, content: None}` record. -/
def write_file_content_llm (root_dir filepath : String) (data : FileData) :
    LLMChunk :=
  let normalized_path := slashify (normpath filepath)
  let rel_path := relpath normalized_path root_dir
  match data.read with
  | .ok content =>
    let ext := asciiLower (splitextExt filepath)
    { file_path := rel_path
      file_type := some (if ext ≠ "" then ext.drop 1 else "unknown")
      size_bytes := some data.size
      last_modified := some data.mtimeIso
      semantic_type := some (_get_semantic_type ext content)
      content_preview := some (⟨content.toList.take 200⟩ ++
        (if content.toList.length > 200 then "..." else ""))
      content_size := some content.toList.length
      content := some content
      metadata_is_binary := some (!_is_text_file content)
      metadata_line_count := some (countChar content '\n' + 1)
      metadata_extension := some ext }
  | .error e =>
    { file_path := rel_path, error := some e, content := none }

/-- `ProjectExportTool.write_file_content`: the text written to the
artifact for one file.  The tag branch uses `normalized_path` (the full
normalized path), the markdown branch uses `rel_path`; a read exception
embeds a one-line message in place of the content. -/
def write_file_content (root_dir filepath : String) (data : FileData)
    (is_markdown : Bool) : String :=
  let normalized_path := slashify (normpath filepath)
  let rel_path := relpath normalized_path root_dir
  (if is_markdown then "\n### File: `" ++ rel_path ++ "`\n\n```\n"
   else "\n<file path=\"" ++ normalized_path ++ "\">\n") ++
  (match data.read with
   | .ok content => content ++ "\n"
   | .error e => "Unable to read file content: " ++ e ++ "\n") ++
  (if is_markdown then "```\n" else "</file>\n")

/-- Python `str(x)` of an optional value, for f-string interpolation
(`None` prints as `"None"`). -/
def pyStr : Option String → String
  | some s => s
  | none => "None"

/-- Subscripting a dict key that may be absent: `chunk[key]` raises
`KeyError` when the key is missing. -/
def dictGet (field : Option α) (key : String) : Except String α :=
  match field with
  | some v => .ok v
  | none => .error ("KeyError: " ++ key)

/-- The markdown block the content loop of `generate_file_structure`
writes for one chunk: it subscripts `semantic_type`, which raises
`KeyError` on the error-shaped record. -/
def renderMarkdownChunk (chunk : LLMChunk) : Except String String := do
  let sem ← dictGet chunk.semantic_type "semantic_type"
  pure ("\n### File: `" ++ chunk.file_path ++ "`\nType: " ++ sem ++
    "\n\n```\n" ++ pyStr chunk.content ++ "\n```\n")

/-! ## Tree builder and format emitters -/

/-- `ProjectExportTool.get_directory_tree`: one header line per walked
directory, indented by the count of separators left in `dirpath` after
`dirpath.replace(root_dir, "")`, then one line per file except the one
whose joined path equals `output_file`. -/
def get_directory_tree (root_dir output_file : String) (children : FSList) :
    String :=
  let tree := (walk root_dir children).flatMap fun e =>
    let level := (deleteOcc root_dir.toList e.1.toList).count '/'
    let indent := String.join (List.replicate level "│   ")
    let subindent := String.join (List.replicate (level + 1) "│   ")
    (indent ++ "├── " ++ basename e.1 ++ "/") ::
      e.2.filterMap fun f =>
        if joinPath e.1 f.1 = output_file then none
        else some (subindent ++ "├── " ++ f.1)
  String.intercalate "\n" tree ++ "\n"

/-- `ProjectExportTool.write_markdown_header`. -/
def write_markdown_header (root_dir : String) : String :=
  "# Project Structure: " ++ basename root_dir ++
    "\n\n## Directory Tree\n\n```\n"

/-- The text branch of `ProjectExportTool.generate_file_structure`
(everything after the `is_json or is_yaml` early return): the artifact
text for a `.txt` or `.md` export, or the exception that escapes
(`KeyError` from the markdown content loop).  On an exception the real
program leaves a partially written artifact behind; only the raised
error is modelled. -/
def generate_file_structure_text (patterns : List String)
    (structure_only is_markdown : Bool) (root_dir output_file : String)
    (children : FSList) : Except String String := do
  let header := if is_markdown then write_markdown_header root_dir else ""
  let tree := get_directory_tree root_dir output_file children
  let fence := if is_markdown then "```\n" else ""
  if structure_only then
    pure (header ++ tree ++ fence)
  else
    let contentsHeader := if is_markdown then "\n## File Contents\n\n" else ""
    let body ← (walk root_dir children).foldlM (fun acc e =>
      e.2.foldlM (fun acc2 f =>
        let filepath := joinPath e.1 f.1
        if should_ignore patterns filepath then pure acc2
        else if is_markdown then do
          let s ← renderMarkdownChunk
            (write_file_content_llm root_dir filepath f.2)
          pure (acc2 ++ s)
        else
          pure (acc2 ++ write_file_content root_dir filepath f.2 false)) acc)
      ""
    pure (header ++ tree ++ fence ++ contentsHeader ++ body)

/-- The logical JSON/YAML document of
`ProjectExportTool._generate_structured_output` (before `json.dump` /
`yaml.dump` serializes it; both emit the same field values). -/
structure StructuredOutput where
  project_name : String
  export_date : String
  structure_only : Bool
  llm_optimized : Bool
  directory_tree : String
  files : List LLMChunk
deriving DecidableEq

/-- `ProjectExportTool._generate_structured_output`: the structured
document for a `.json`/`.yaml` export.  `export_date` models
`datetime.now().isoformat()`.  Plain (non-LLM) entries are two-key dicts,
encoded as an `LLMChunk` with every other field absent. -/
def _generate_structured_output (patterns : List String)
    (structure_only llm_optimize : Bool) (root_dir output_file : String)
    (children : FSList) (export_date : String) : StructuredOutput :=
  let files :=
    if structure_only then []
    else (walk root_dir children).flatMap fun e =>
      e.2.filterMap fun f =>
        let filepath := joinPath e.1 f.1
        if should_ignore patterns filepath then none
        else if filepath = output_file then none
        else if llm_optimize then
          some (write_file_content_llm root_dir filepath f.2)
        else
          match f.2.read with
          | .ok content =>
            some { file_path := relpath filepath root_dir,
                   content := some content }
          | .error e =>
            some ({ file_path := relpath filepath root_dir,
                    error := some e } : LLMChunk)
  { project_name := basename root_dir
    export_date := export_date
    structure_only := structure_only
    llm_optimized := llm_optimize
    directory_tree := get_directory_tree root_dir output_file children
    files := files }

/-- The result of one export: the artifact text for `.txt`/`.md`, the
structured document for `.json`/`.yaml`. -/
inductive ExportOutput where
  | textOut (artifact : String) : ExportOutput
  | structured (doc : StructuredOutput) : ExportOutput

/-- `ProjectExportTool.generate_file_structure`: dispatch on the output
file suffix, as the source does, then run the matching emitter. -/
def generate_file_structure (patterns : List String)
    (structure_only llm_optimize : Bool) (root_dir output_file : String)
    (children : FSList) (export_date : String) : Except String ExportOutput :=
  let is_markdown := strEndsWith output_file ".md"
  let is_json := strEndsWith output_file ".json"
  let is_yaml := strEndsWith output_file ".yaml"
  if is_json || is_yaml then
    pure (.structured (_generate_structured_output patterns structure_only
      llm_optimize root_dir output_file children export_date))
  else
    (generate_file_structure_text patterns structure_only is_markdown
      root_dir output_file children).map .textOut

/-- The output path `ProjectExportTool.export_project` computes:
`<root>/<basename(root)>_structure[_and_content].<ext>` with the
extension looked up from the format selector text (default `.txt`). -/
def export_output_file (root_dir format_name : String)
    (structure_only : Bool) : String :=
  let ext :=
    if format_name = "text" then ".txt"
    else if format_name = "markdown" then ".md"
    else if format_name = "json" then ".json"
    else if format_name = "yaml" then ".yaml"
    else ".txt"
  let filename := basename root_dir ++ "_structure" ++
    (if structure_only then "" else "_and_content") ++ ext
  joinPath root_dir filename

/-! ## Derived views used by the claim statements -/

/-- The `(filepath, data)` pairs the content loops visit and keep: every
file of the walk, in walk order, whose joined path survives
`should_ignore`. -/
def contentFiles (patterns : List String) (root_dir : String)
    (children : FSList) : List (String × FileData) :=
  (walk root_dir children).flatMap fun e =>
    e.2.filterMap fun f =>
      let filepath := joinPath e.1 f.1
      if should_ignore patterns filepath then none else some (filepath, f.2)

/-- The markdown block the content loop produces for a file whose read
succeeded with `content`. -/
def mdBlock (root_dir filepath content : String) : String :=
  "\n### File: `" ++ relpath (slashify (normpath filepath)) root_dir ++
    "`\nType: " ++
    _get_semantic_type (asciiLower (splitextExt filepath)) content ++
    "\n\n```\n" ++ content ++ "\n```\n"

/-- `mdBlock` keyed on the file data (the error branch is unreachable
whenever the read succeeded, which the theorems using this assume). -/
def mdBlockOfData (root_dir filepath : String) (d : FileData) : String :=
  match d.read with
  | .ok c => mdBlock root_dir filepath c
  | .error _ => ""

/-- Depth-annotated variant of `walkSubdirs`, used to state what
"nesting depth" means for a walked directory. -/
def walkSubdirsD (depth : Nat) (dirpath : String) : FSList →
    List (Nat × String × List (String × FileData))
  | .nil => []
  | .file _ _ rest => walkSubdirsD depth dirpath rest
  | .dir n cs rest =>
    (depth + 1, joinPath dirpath n, filesOf cs) ::
      (walkSubdirsD (depth + 1) (joinPath dirpath n) cs
        ++ walkSubdirsD depth dirpath rest)

/-- Depth-annotated variant of `walk` (the root is at depth 0). -/
def walkD (depth : Nat) (dirpath : String) (children : FSList) :
    List (Nat × String × List (String × FileData)) :=
  (depth, dirpath, filesOf children) :: walkSubdirsD depth dirpath children

/-- The directory-tree text as the specification describes it: for every
visited directory one line `"<indent>├── <dirname>/"` with the indent
`"│   "` repeated by nesting depth (the root at depth 0, its basename
printed), followed by one line `"<subindent>├── <filename>"` per file of
that directory in enumeration order, with the subindent at depth + 1;
the lines newline-joined with a trailing newline. -/
def claimTree (root_dir : String) (children : FSList) : String :=
  let lines := (walkD 0 root_dir children).flatMap fun e =>
    (String.join (List.replicate e.1 "│   ") ++ "├── " ++
        basename e.2.1 ++ "/") ::
      e.2.2.map fun f =>
        String.join (List.replicate (e.1 + 1) "│   ") ++ "├── " ++ f.1
  String.intercalate "\n" lines ++ "\n"

/-- A wellformed entry name: nonempty and free of path separators (what
any real directory-entry name satisfies). -/
def nameOk (n : String) : Bool := !n.toList.isEmpty && !n.toList.contains '/'

/-- Every entry name in the snapshot is wellformed. -/
def wfNames : FSList → Bool
  | .nil => true
  | .file n _ rest => nameOk n && wfNames rest
  | .dir n cs rest => nameOk n && wfNames cs && wfNames rest

/-- Concatenation of a list of strings (left to right). -/
def strJoin : List String → String
  | [] => ""
  | s :: rest => s ++ strJoin rest

/-- The path suffix contributed by descending through the named
components: `"/c1/c2/.../ck"`. -/
def relString (comps : List String) : String :=
  strJoin (comps.map fun c => "/" ++ c)

/-! ## Concrete snapshots used by the claim instances -/

/-- A readable file whose decoded content is `c`. -/
def fdOk (c : String) : FileData :=
  ⟨.ok c, c.toList.length, "2024-01-01T00:00:00"⟩

/-- Root listing of `/proj` with `a.py`, `sub/b.md` and `.git/config`. -/
def fsScenario : FSList :=
  .file "a.py" (fdOk "x=1")
    (.dir "sub" (.file "b.md" (fdOk "# hi") .nil)
      (.dir ".git" (.file "config" (fdOk "[core]") .nil) .nil))

/-- Root listing of `/proj` with `a.py` and a pre-created stale file at
the artifact's own target path. -/
def fsStale : FSList :=
  .file "a.py" (fdOk "x=1")
    (.file "proj_structure_and_content.txt" (fdOk "stale") .nil)

/-- Root listing of `/proj` with `a.py` and a file whose read raises. -/
def fsReadErr : FSList :=
  .file "a.py" (fdOk "x=1")
    (.file "gone.txt" ⟨.error "[Errno 2] No such file or directory", 0, ""⟩
      .nil)

/-- Root listing of `/proj` with the single file `a.py`. -/
def fsOne : FSList := .file "a.py" (fdOk "x=1") .nil

/-- A three-level snapshot on which every hypothesis of `c8_amended`
holds. -/
def fsNested : FSList :=
  .file "a.py" (fdOk "x=1")
    (.dir "sub" (.file "b.md" (fdOk "hi") .nil)
      (.dir "docs" (.dir "img" (.file "x.png" (fdOk "P") .nil) .nil) .nil))

/-! ## Basic lemmas -/

theorem walkSubdirs_dir (d : String) (n : String) (cs rest : FSList) :
    walkSubdirs d (.dir n cs rest) =
      walk (joinPath d n) cs ++ walkSubdirs d rest := rfl

theorem slash_not_mem_basenameList (l : List Char) :
    ('/' : Char) ∉ basenameList l := by
  induction l with
  | nil => simp [basenameList]
  | cons c t ih =>
    simp only [basenameList]
    split
    · exact ih
    · split
      · exact ih
      · rename_i hc ht
        simp only [List.mem_cons, not_or]
        exact ⟨fun h => hc h.symm, ht⟩

theorem basenameList_of_no_slash (l : List Char) (h : ('/' : Char) ∉ l) :
    basenameList l = l := by
  cases l with
  | nil => rfl
  | cons c t =>
    simp only [List.mem_cons, not_or] at h
    have hc : c ≠ '/' := fun hh => h.1 hh.symm
    simp [basenameList, hc, h.2]

theorem basenameList_idem (l : List Char) :
    basenameList (basenameList l) = basenameList l :=
  basenameList_of_no_slash _ (slash_not_mem_basenameList l)

theorem basename_basename (p : String) : basename (basename p) = basename p := by
  simp [basename, String.toList, basenameList_idem]

/-- No Lean `Char` is a surrogate code point (`Char` carries the
validity invariant of a Unicode scalar value, exactly the invariant a
Python `str` obtained by utf-8 decoding has). -/
theorem char_not_surrogate (c : Char) :
    (0xD800 ≤ c.toNat && c.toNat ≤ 0xDFFF) = false := by
  have h := c.valid
  rcases h with h | ⟨h1, _⟩
  · have : c.toNat < 0xD800 := h
    simp only [Bool.and_eq_false_iff, decide_eq_false_iff_not, not_le]
    left
    omega
  · have : 0xDFFF < c.toNat := h1
    simp only [Bool.and_eq_false_iff, decide_eq_false_iff_not, not_le]
    right
    omega

/-- `content.encode("utf-8")` never fails on text that itself came from a
utf-8 decode: `_is_text_file` is constantly true. -/
theorem _is_text_file_eq_true (content : String) :
    _is_text_file content = true := by
  simp only [_is_text_file, List.all_eq_true]
  intro c _
  simp [char_not_surrogate c]

/-! ## Claim C1 -/

/-- C1: the spec asserts that for every export the artifact's own path is
excluded from the tree text and from the content entries by path
equality.  The code implements the equality skip in `get_directory_tree`
and in `_generate_structured_output`, but the `.txt`/`.md` content loop
of `generate_file_structure` has no such check: with the documented
test setup (a stale file pre-created at the computed output path of a
text export of `/proj`), the artifact text contains a
`<file path="/proj/proj_structure_and_content.txt">` block for the
artifact itself, even though the tree part did skip it and the
structured (JSON/YAML) walk on the same snapshot excludes it too.  This
evaluates the embedded code at that failing input. -/
theorem c1_artifact_block_emitted :
    export_output_file "/proj" "text" false =
      "/proj/proj_structure_and_content.txt" ∧
    generate_file_structure DEFAULT_IGNORE_PATTERNS false false "/proj"
        "/proj/proj_structure_and_content.txt" fsStale "2024-01-01" =
      .ok (.textOut
        ("├── proj/\n│   ├── a.py\n\n<file path=\"/proj/a.py\">\nx=1\n</file>\n\n<file path=\"/proj/proj_structure_and_content.txt\">\nstale\n</file>\n")) ∧
    hasOcc "<file path=\"/proj/proj_structure_and_content.txt\">".toList
      ("├── proj/\n│   ├── a.py\n\n<file path=\"/proj/a.py\">\nx=1\n</file>\n\n<file path=\"/proj/proj_structure_and_content.txt\">\nstale\n</file>\n").toList = true ∧
    hasOcc "proj_structure_and_content".toList
      (get_directory_tree "/proj" "/proj/proj_structure_and_content.txt"
        fsStale).toList = false ∧
    (_generate_structured_output DEFAULT_IGNORE_PATTERNS false false
        "/proj" "/proj/proj_structure_and_content.txt" fsStale
        "2024-01-01").files =
      [{ file_path := "a.py", content := some "x=1" }] :=
  ⟨rfl, rfl, rfl, rfl, rfl⟩

/-! ## Claim C2 -/

/-- C2: the claim states that in the `.txt` export of the scenario
directory the tree shows no `.git` entries and exactly two `<file>`
blocks are emitted.  In fact `get_directory_tree` never consults the
ignore filter, and the content loop tests `should_ignore` on the file's
basename only (`config` matches no default pattern), so the artifact
contains `.git` tree lines and a third block for `.git/config`: the
claim is false at this input. -/
theorem c2_counterexample :
    generate_file_structure DEFAULT_IGNORE_PATTERNS false false "/proj"
        "/proj/proj_structure_and_content.txt" fsScenario "2024-01-01" =
      .ok (.textOut
        ("├── proj/\n│   ├── a.py\n│   ├── sub/\n│   │   ├── b.md\n│   ├── .git/\n│   │   ├── config\n\n<file path=\"/proj/a.py\">\nx=1\n</file>\n\n<file path=\"/proj/sub/b.md\">\n# hi\n</file>\n\n<file path=\"/proj/.git/config\">\n[core]\n</file>\n")) ∧
    hasOcc "├── .git/".toList
      (get_directory_tree "/proj" "/proj/proj_structure_and_content.txt"
        fsScenario).toList = true ∧
    hasOcc "<file path=\"/proj/.git/config\">".toList
      ("├── proj/\n│   ├── a.py\n│   ├── sub/\n│   │   ├── b.md\n│   ├── .git/\n│   │   ├── config\n\n<file path=\"/proj/a.py\">\nx=1\n</file>\n\n<file path=\"/proj/sub/b.md\">\n# hi\n</file>\n\n<file path=\"/proj/.git/config\">\n[core]\n</file>\n").toList = true :=
  ⟨rfl, rfl, rfl⟩

/-- C2 (amended): what the `.txt` export of the scenario directory
actually contains: the tree lists `proj/`, `a.py`, `sub/`, `b.md`,
`.git/` and `config` (the tree builder applies no ignore filtering), and
three `<file>` blocks follow in walk order — `a.py`, `sub/b.md` and
`.git/config` — because the ignore filter is consulted only on each
file's basename, which for `config` matches no default pattern. -/
theorem c2_amended :
    generate_file_structure DEFAULT_IGNORE_PATTERNS false false "/proj"
        "/proj/proj_structure_and_content.txt" fsScenario "2024-01-01" =
      .ok (.textOut
        (String.intercalate "\n"
          ["├── proj/", "│   ├── a.py", "│   ├── sub/", "│   │   ├── b.md",
           "│   ├── .git/", "│   │   ├── config"] ++ "\n" ++
         "\n<file path=\"/proj/a.py\">\nx=1\n</file>\n" ++
         "\n<file path=\"/proj/sub/b.md\">\n# hi\n</file>\n" ++
         "\n<file path=\"/proj/.git/config\">\n[core]\n</file>\n")) :=
  rfl

/-! ## Claim C4 -/

/-- C4: the spec asserts that a single unreadable file is never fatal in
any format.  The markdown content loop subscripts `semantic_type` on the
record `write_file_content_llm` returns, which for a failed read is the
`{file_path, error, content}` dict: the subscript raises `KeyError` and
the export aborts.  This evaluates the embedded code at that failing
input (a `.md` export of a directory holding one healthy file and one
whose read raises); the same snapshot exported as text or as the
structured document completes with an inline error message / error
entry, as the claim demands, isolating the bug to the markdown path. -/
theorem c4_markdown_abort :
    generate_file_structure DEFAULT_IGNORE_PATTERNS false false "/proj"
        "/proj/proj_structure_and_content.md" fsReadErr "2024-01-01" =
      .error "KeyError: semantic_type" ∧
    generate_file_structure DEFAULT_IGNORE_PATTERNS false false "/proj"
        "/proj/proj_structure_and_content.txt" fsReadErr "2024-01-01" =
      .ok (.textOut
        ("├── proj/\n│   ├── a.py\n│   ├── gone.txt\n\n<file path=\"/proj/a.py\">\nx=1\n</file>\n\n<file path=\"/proj/gone.txt\">\nUnable to read file content: [Errno 2] No such file or directory\n</file>\n")) ∧
    (_generate_structured_output DEFAULT_IGNORE_PATTERNS false false
        "/proj" "/proj/proj_structure_and_content.json" fsReadErr
        "2024-01-01").files =
      [{ file_path := "a.py", content := some "x=1" },
       { file_path := "gone.txt",
         error := some "[Errno 2] No such file or directory" }] :=
  ⟨rfl, rfl, rfl⟩

/-! ## Claim C3 -/

/-- C3: `should_ignore` returns true exactly when some pattern of the
set glob-matches the basename (final path segment) of the path, and the
result depends on the path only through its basename (so a pattern is
never matched against the full path); the function is a pure Lean
function of `(patterns, path)`, hence deterministic. -/
theorem c3_should_ignore_basename_glob (patterns : List String)
    (path : String) :
    (should_ignore patterns path = true ↔
      ∃ pattern ∈ patterns, fnmatch (basename path) pattern = true) ∧
    should_ignore patterns path = should_ignore patterns (basename path) := by
  constructor
  · simp [should_ignore, List.any_eq_true]
  · simp [should_ignore, basename_basename]

/-! ## Claim C9 -/

/-- C9: unchecking then rechecking the defaults checkbox restores
exactly the default pattern set, which is precisely the documented
15-pattern list (stated as order-independent membership equality, the
Python value being a set). -/
theorem c9_defaults_restored (S : List String) :
    toggle_ignore_patterns true (toggle_ignore_patterns false S) =
      DEFAULT_IGNORE_PATTERNS ∧
    (∀ p : String,
      p ∈ toggle_ignore_patterns true (toggle_ignore_patterns false S) ↔
      p ∈ ([".git", ".gitignore", "__pycache__", "*.pyc", ".DS_Store",
            "node_modules", ".idea", ".vscode", "*.log", "*.tmp", "*.temp",
            "*.swp", "~*", "Thumbs.db", "desktop.ini"] : List String)) :=
  ⟨rfl, fun _ => Iff.rfl⟩

/-! ## Claim C10 -/

/-- C10: unchecking the defaults checkbox clears the whole pattern set
(custom additions included), after which `should_ignore` rejects
nothing: it returns false on every path until patterns are added
again. -/
theorem c10_uncheck_clears_all (S : List String) (path : String) :
    toggle_ignore_patterns false S = [] ∧
    should_ignore (toggle_ignore_patterns false S) path = false :=
  ⟨rfl, rfl⟩

/-! ## Claim C7 -/

/-- C7: the claim says a file whose content cannot be decoded as text is
flagged `is_binary=true`, on a path independent from the read-failure
path.  In the code the decode happens inside the guarded read
(`open(...).read()` raises `UnicodeDecodeError`), so a decode failure
takes the read-failure path and produces the `{file_path, error,
content: None}` record, which carries no `is_binary` key at all — shown
here on a concrete undecodable file routed through the LLM-optimized
structured export. -/
theorem c7_counterexample :
    (_generate_structured_output DEFAULT_IGNORE_PATTERNS false true "/proj"
        "/proj/proj_structure_and_content.json"
        (.file "img.png"
          ⟨.error "utf-8 codec cannot decode byte 0x89 in position 0", 100,
            "2024-01-01T00:00:00"⟩ .nil)
        "2024-01-01").files =
      [{ file_path := "img.png",
         error := some "utf-8 codec cannot decode byte 0x89 in position 0",
         content := none }] ∧
    ({ file_path := "img.png",
       error := some "utf-8 codec cannot decode byte 0x89 in position 0",
       content := none } : LLMChunk).metadata_is_binary ≠ some true :=
  ⟨rfl, by decide⟩

/-- C7 (amended): a decode failure is handled by the read-failure path —
`write_file_content_llm` returns the `{file_path, error, content: None}`
record with no `is_binary` key — while `is_binary` is computed only for
successfully decoded content, where it is always false (a utf-8-decoded
string always re-encodes). -/
theorem c7_amended (root_dir filepath : String) (d : FileData) :
    (∀ e, d.read = .error e →
      write_file_content_llm root_dir filepath d =
        { file_path := relpath (slashify (normpath filepath)) root_dir,
          error := some e, content := none }) ∧
    (∀ c, d.read = .ok c →
      (write_file_content_llm root_dir filepath d).metadata_is_binary =
        some false) := by
  constructor
  · intro e he
    simp [write_file_content_llm, he]
  · intro c hc
    simp [write_file_content_llm, hc, _is_text_file_eq_true]

/-- C7 (amended) at concrete inputs: an undecodable file yields the
error record, a decoded file gets `is_binary = false`. -/
theorem c7_amended_witness :
    write_file_content_llm "/proj" "/proj/img.png"
        ⟨.error "invalid start byte", 100, "2024-01-01T00:00:00"⟩ =
      { file_path := relpath (slashify (normpath "/proj/img.png")) "/proj",
        error := some "invalid start byte", content := none } ∧
    (write_file_content_llm "/proj" "/proj/a.py"
        (fdOk "x=1")).metadata_is_binary = some false :=
  ⟨(c7_amended "/proj" "/proj/img.png"
      ⟨.error "invalid start byte", 100, "2024-01-01T00:00:00"⟩).1
      "invalid start byte" rfl,
   (c7_amended "/proj" "/proj/a.py" (fdOk "x=1")).2 "x=1" rfl⟩

/-! ## Fold lemmas for the content loops -/

theorem strJoin_append (xs ys : List String) :
    strJoin (xs ++ ys) = strJoin xs ++ strJoin ys := by
  induction xs with
  | nil => simp [strJoin]
  | cons x xs ih => simp [strJoin, ih, String.append_assoc]

theorem renderMarkdownChunk_of_ok (root_dir filepath : String)
    (d : FileData) (c : String) (h : d.read = .ok c) :
    renderMarkdownChunk (write_file_content_llm root_dir filepath d) =
      .ok (mdBlockOfData root_dir filepath d) := by
  simp [write_file_content_llm, h, renderMarkdownChunk, dictGet, pyStr,
    mdBlockOfData, mdBlock]

theorem except_ok_bind {a : Type} {b : Type} (x : a)
    (k : a -> Except String b) :
    (Except.ok x : Except String a) >>= k = k x := rfl

theorem foldFilesTxt (patterns : List String) (root_dir dirpath : String)
    (fs : List (String × FileData)) (acc : String) :
    (fs.foldlM (fun acc2 f =>
        if should_ignore patterns (joinPath dirpath f.1) then pure acc2
        else pure (acc2 ++
          write_file_content root_dir (joinPath dirpath f.1) f.2 false))
      acc : Except String String)
    = .ok (acc ++ strJoin ((fs.filterMap fun f =>
        if should_ignore patterns (joinPath dirpath f.1) then none
        else some (joinPath dirpath f.1, f.2)).map
          fun x => write_file_content root_dir x.1 x.2 false)) := by
  induction fs generalizing acc with
  | nil =>
    simp only [List.foldlM_nil, List.filterMap_nil, List.map_nil, strJoin,
      String.append_empty]
    rfl
  | cons f fs ih =>
    rw [List.foldlM_cons]
    by_cases hig : should_ignore patterns (joinPath dirpath f.1) = true
    · rw [if_pos hig, pure_bind, ih,
        List.filterMap_cons_none (by rw [if_pos hig])]
    · rw [if_neg hig, pure_bind, ih,
        List.filterMap_cons_some (by rw [if_neg hig]), List.map_cons]
      show _ = Except.ok (acc ++
        (write_file_content root_dir (joinPath dirpath f.1) f.2 false ++ _))
      rw [← String.append_assoc]

theorem foldFilesMd (patterns : List String) (root_dir dirpath : String)
    (fs : List (String × FileData)) (acc : String)
    (h : ∀ f ∈ fs, ∃ c, (f : String × FileData).2.read = Except.ok c) :
    (fs.foldlM (fun acc2 f =>
        if should_ignore patterns (joinPath dirpath f.1) then pure acc2
        else do
          let s ← renderMarkdownChunk
            (write_file_content_llm root_dir (joinPath dirpath f.1) f.2)
          pure (acc2 ++ s))
      acc : Except String String)
    = .ok (acc ++ strJoin ((fs.filterMap fun f =>
        if should_ignore patterns (joinPath dirpath f.1) then none
        else some (joinPath dirpath f.1, f.2)).map
          fun x => mdBlockOfData root_dir x.1 x.2)) := by
  induction fs generalizing acc with
  | nil =>
    simp only [List.foldlM_nil, List.filterMap_nil, List.map_nil, strJoin,
      String.append_empty]
    rfl
  | cons f fs ih =>
    obtain ⟨c, hc⟩ := h f (by simp)
    have hrest : ∀ g ∈ fs, ∃ c, (g : String × FileData).2.read =
        Except.ok c := fun g hg => h g (by simp [hg])
    rw [List.foldlM_cons]
    by_cases hig : should_ignore patterns (joinPath dirpath f.1) = true
    · rw [if_pos hig, pure_bind, ih _ hrest,
        List.filterMap_cons_none (by rw [if_pos hig])]
    · rw [if_neg hig]
      show (renderMarkdownChunk
          (write_file_content_llm root_dir (joinPath dirpath f.1) f.2) >>=
            fun s => pure (acc ++ s)) >>= _ = _
      rw [renderMarkdownChunk_of_ok root_dir (joinPath dirpath f.1) f.2 c hc,
        except_ok_bind, pure_bind, ih _ hrest,
        List.filterMap_cons_some (by rw [if_neg hig]), List.map_cons]
      show _ = Except.ok (acc ++
        (mdBlockOfData root_dir (joinPath dirpath f.1) f.2 ++ _))
      rw [← String.append_assoc]

theorem foldDirsTxt (patterns : List String) (root_dir : String)
    (l : List (String × List (String × FileData))) (acc : String) :
    (l.foldlM (fun acc e =>
        e.2.foldlM (fun acc2 f =>
          if should_ignore patterns (joinPath e.1 f.1) then pure acc2
          else pure (acc2 ++
            write_file_content root_dir (joinPath e.1 f.1) f.2 false))
          acc)
      acc : Except String String)
    = .ok (acc ++ strJoin ((l.flatMap fun e =>
        e.2.filterMap fun f =>
          if should_ignore patterns (joinPath e.1 f.1) then none
          else some (joinPath e.1 f.1, f.2)).map
            fun x => write_file_content root_dir x.1 x.2 false)) := by
  induction l generalizing acc with
  | nil =>
    simp only [List.foldlM_nil, List.flatMap_nil, List.filterMap_nil,
      List.map_nil, strJoin, String.append_empty]
    rfl
  | cons e l ih =>
    rw [List.foldlM_cons, foldFilesTxt, except_ok_bind, ih,
      List.flatMap_cons, List.map_append, strJoin_append,
      ← String.append_assoc]

theorem foldDirsMd (patterns : List String) (root_dir : String)
    (l : List (String × List (String × FileData))) (acc : String)
    (h : ∀ e ∈ l, ∀ f ∈ (e : String × List (String × FileData)).2,
      ∃ c, (f : String × FileData).2.read = Except.ok c) :
    (l.foldlM (fun acc e =>
        e.2.foldlM (fun acc2 f =>
          if should_ignore patterns (joinPath e.1 f.1) then pure acc2
          else do
            let s ← renderMarkdownChunk
              (write_file_content_llm root_dir (joinPath e.1 f.1) f.2)
            pure (acc2 ++ s))
          acc)
      acc : Except String String)
    = .ok (acc ++ strJoin ((l.flatMap fun e =>
        e.2.filterMap fun f =>
          if should_ignore patterns (joinPath e.1 f.1) then none
          else some (joinPath e.1 f.1, f.2)).map
            fun x => mdBlockOfData root_dir x.1 x.2)) := by
  induction l generalizing acc with
  | nil =>
    simp only [List.foldlM_nil, List.flatMap_nil, List.filterMap_nil,
      List.map_nil, strJoin, String.append_empty]
    rfl
  | cons e l ih =>
    have he := h e (by simp)
    have hrest : ∀ g ∈ l, ∀ f ∈
        (g : String × List (String × FileData)).2,
        ∃ c, (f : String × FileData).2.read = Except.ok c :=
      fun g hg => h g (by simp [hg])
    rw [List.foldlM_cons, foldFilesMd patterns root_dir e.1 e.2 acc he,
      except_ok_bind, ih _ hrest, List.flatMap_cons, List.map_append,
      strJoin_append, ← String.append_assoc]

/-! ## Emitter characterizations -/

theorem gen_text_txt (patterns : List String)
    (root_dir output_file : String) (children : FSList) :
    generate_file_structure_text patterns false false root_dir output_file
        children =
      .ok (get_directory_tree root_dir output_file children ++
        strJoin ((contentFiles patterns root_dir children).map
          fun x => write_file_content root_dir x.1 x.2 false)) := by
  unfold generate_file_structure_text contentFiles
  simp only [Bool.false_eq_true, if_false]
  rw [foldDirsTxt]
  simp [except_ok_bind, String.empty_append]

theorem gen_text_md (patterns : List String)
    (root_dir output_file : String) (children : FSList)
    (hread : ∀ e ∈ walk root_dir children,
      ∀ f ∈ (e : String × List (String × FileData)).2,
      ∃ c, (f : String × FileData).2.read = Except.ok c) :
    generate_file_structure_text patterns false true root_dir output_file
        children =
      .ok (write_markdown_header root_dir ++
        get_directory_tree root_dir output_file children ++ "```\n" ++
        "\n## File Contents\n\n" ++
        strJoin ((contentFiles patterns root_dir children).map
          fun x => mdBlockOfData root_dir x.1 x.2)) := by
  unfold generate_file_structure_text contentFiles
  simp only [Bool.false_eq_true, if_false, if_true]
  rw [foldDirsMd patterns root_dir (walk root_dir children) "" hread]
  simp [except_ok_bind, String.empty_append]

theorem slashify_no_backslash (s : String) :
    ('\\' : Char) ∉ (slashify s).toList := by
  simp only [slashify, String.toList, List.mem_map, not_exists]
  intro a
  intro h
  rcases h with ⟨_, ha⟩
  by_cases hb : a = '\\'
  · rw [if_pos hb] at ha
    exact absurd ha (by decide)
  · rw [if_neg hb] at ha
    exact hb ha

/-! ## Claim C5 -/

/-- C5: the claim says the markdown export renders each file in plain
mode when the LLM flag is off.  In the code the markdown content loop
never consults the flag: the artifact carries the `Type:`-annotated LLM
record form, and the plain markdown rendering (which would read
"### File: `a.py`" followed by a blank line and a bare fence) never
occurs.  Shown on a concrete flag-off export. -/
theorem c5_counterexample :
    generate_file_structure DEFAULT_IGNORE_PATTERNS false false "/proj"
        "/proj/out.md" fsOne "2024-01-01" =
      .ok (.textOut "# Project Structure: proj\n\n## Directory Tree\n\n```\n├── proj/\n│   ├── a.py\n```\n\n## File Contents\n\n\n### File: `a.py`\nType: source_code\n\n```\nx=1\n```\n") ∧
    hasOcc "Type: source_code".toList
      ("# Project Structure: proj\n\n## Directory Tree\n\n```\n├── proj/\n│   ├── a.py\n```\n\n## File Contents\n\n\n### File: `a.py`\nType: source_code\n\n```\nx=1\n```\n").toList = true ∧
    hasOcc "### File: `a.py`\n\n```".toList
      ("# Project Structure: proj\n\n## Directory Tree\n\n```\n├── proj/\n│   ├── a.py\n```\n\n## File Contents\n\n\n### File: `a.py`\nType: source_code\n\n```\nx=1\n```\n").toList = false :=
  ⟨rfl, rfl, rfl⟩

/-- C5 (amended): for a markdown export whose file reads all succeed,
the artifact is header, fenced tree, `## File Contents`, then one
`mdBlock` per surviving file — the `Type:`-annotated LLM record
flattening — and this holds for BOTH values of the LLM-optimize flag:
the markdown path never consults it, so the plain form is unused. -/
theorem c5_amended (patterns : List String) (llm_optimize : Bool)
    (root_dir output_file : String) (children : FSList)
    (export_date : String)
    (hmd : strEndsWith output_file ".md" = true)
    (hjson : strEndsWith output_file ".json" = false)
    (hyaml : strEndsWith output_file ".yaml" = false)
    (hread : ∀ e ∈ walk root_dir children,
      ∀ f ∈ (e : String × List (String × FileData)).2,
      ∃ c, (f : String × FileData).2.read = Except.ok c) :
    generate_file_structure patterns false llm_optimize root_dir
        output_file children export_date =
      .ok (.textOut (write_markdown_header root_dir ++
        get_directory_tree root_dir output_file children ++ "```\n" ++
        "\n## File Contents\n\n" ++
        strJoin ((contentFiles patterns root_dir children).map
          fun x => mdBlockOfData root_dir x.1 x.2))) := by
  unfold generate_file_structure
  simp only [hmd, hjson, hyaml, Bool.or_self, Bool.false_eq_true, if_false]
  rw [gen_text_md patterns root_dir output_file children hread]
  rfl

/-- C5 (amended) at a concrete input: flag off, markdown export of a
one-file directory. -/
theorem c5_amended_witness :
    generate_file_structure DEFAULT_IGNORE_PATTERNS false false "/proj"
        "/proj/proj_structure_and_content.md" fsOne "2024-01-01" =
      .ok (.textOut (write_markdown_header "/proj" ++
        get_directory_tree "/proj" "/proj/proj_structure_and_content.md"
          fsOne ++ "```\n" ++
        "\n## File Contents\n\n" ++
        strJoin ((contentFiles DEFAULT_IGNORE_PATTERNS "/proj" fsOne).map
          fun x => mdBlockOfData "/proj" x.1 x.2))) :=
  c5_amended DEFAULT_IGNORE_PATTERNS false "/proj"
    "/proj/proj_structure_and_content.md" fsOne "2024-01-01" rfl rfl rfl
    (by
      intro e he f hf
      simp only [walk, walkSubdirs, filesOf, fsOne, List.mem_singleton]
        at he
      subst he
      simp only [List.mem_singleton] at hf
      subst hf
      exact ⟨"x=1", rfl⟩)

/-! ## Claim C6 -/

/-- C6: the claim says the `path` attribute of each `<file>` block is the
root-relative forward-slash path.  The code interpolates
`normalized_path` — the normpath-normalized FULL path — not `rel_path`
(which it computes and then only uses for markdown): the block for
`/proj/a.py` reads `path="/proj/a.py"`, and the root-relative form
`path="a.py"` occurs nowhere. -/
theorem c6_counterexample :
    generate_file_structure DEFAULT_IGNORE_PATTERNS false false "/proj"
        "/proj/out.txt" fsOne "2024-01-01" =
      .ok (.textOut "├── proj/\n│   ├── a.py\n\n<file path=\"/proj/a.py\">\nx=1\n</file>\n") ∧
    hasOcc "<file path=\"/proj/a.py\">".toList
      ("├── proj/\n│   ├── a.py\n\n<file path=\"/proj/a.py\">\nx=1\n</file>\n").toList = true ∧
    hasOcc "<file path=\"a.py\">".toList
      ("├── proj/\n│   ├── a.py\n\n<file path=\"/proj/a.py\">\nx=1\n</file>\n").toList = false :=
  ⟨rfl, rfl, rfl⟩

/-- C6 (amended): a `.txt` export is the tree followed by one block per
surviving file in walk order; each block's `path` attribute is the
normpath-normalized full file path with every backslash replaced by a
forward slash (so it contains no backslash on any host), but it is the
full path, not the root-relative one. -/
theorem c6_amended (patterns : List String) (llm_optimize : Bool)
    (root_dir output_file : String) (children : FSList)
    (export_date : String)
    (hmd : strEndsWith output_file ".md" = false)
    (hjson : strEndsWith output_file ".json" = false)
    (hyaml : strEndsWith output_file ".yaml" = false) :
    generate_file_structure patterns false llm_optimize root_dir
        output_file children export_date =
      .ok (.textOut (get_directory_tree root_dir output_file children ++
        strJoin ((contentFiles patterns root_dir children).map
          fun x => write_file_content root_dir x.1 x.2 false))) ∧
    ∀ x ∈ contentFiles patterns root_dir children,
      (∃ body, write_file_content root_dir x.1 x.2 false =
        "\n<file path=\"" ++ slashify (normpath x.1) ++ "\">\n" ++ body ++
          "</file>\n") ∧
      ('\\' : Char) ∉ (slashify (normpath x.1)).toList := by
  constructor
  · unfold generate_file_structure
    simp only [hmd, hjson, hyaml, Bool.or_self, Bool.false_eq_true,
      if_false]
    rw [gen_text_txt patterns root_dir output_file children]
    rfl
  · intro x _
    refine ⟨?_, slashify_no_backslash (normpath x.1)⟩
    cases hr : x.2.read with
    | ok c =>
      exact ⟨c ++ "\n", by simp [write_file_content, hr,
        String.append_assoc]⟩
    | error e =>
      exact ⟨"Unable to read file content: " ++ e ++ "\n",
        by simp [write_file_content, hr, String.append_assoc]⟩

/-- C6 (amended) at a concrete input. -/
theorem c6_amended_witness :
    generate_file_structure DEFAULT_IGNORE_PATTERNS false false "/proj"
        "/proj/out.txt" fsOne "2024-01-01" =
      .ok (.textOut (get_directory_tree "/proj" "/proj/out.txt" fsOne ++
        strJoin ((contentFiles DEFAULT_IGNORE_PATTERNS "/proj" fsOne).map
          fun x => write_file_content "/proj" x.1 x.2 false))) :=
  (c6_amended DEFAULT_IGNORE_PATTERNS false "/proj" "/proj/out.txt" fsOne
    "2024-01-01" rfl rfl rfl).1

/-! ## Claim C8 support: walk geometry and `str.replace` facts -/

theorem str_toList_append (a b : String) :
    (a ++ b).toList = a.toList ++ b.toList := by
  cases a
  cases b
  rfl

theorem hasOcc_nil_of_ne (pat : List Char) (h : pat ≠ []) :
    hasOcc pat [] = false := by
  simp [hasOcc, h]

theorem deleteOccAux_no_occ (pat : List Char) (s : List Char) (fuel : Nat)
    (hfuel : s.length ≤ fuel) (h : hasOcc pat s = false) :
    deleteOccAux pat fuel s = s := by
  induction s generalizing fuel with
  | nil => cases fuel <;> rfl
  | cons c t ih =>
    cases fuel with
    | zero => simp at hfuel
    | succ f =>
      simp only [hasOcc, Bool.or_eq_false_iff] at h
      simp only [deleteOccAux, h.1, Bool.and_false, Bool.false_eq_true,
        if_false]
      exact congrArg (c :: ·) (ih f (by simpa using hfuel) h.2)

theorem deleteOcc_self_append (pat r : List Char) (hp : pat ≠ [])
    (h : hasOcc pat r = false) : deleteOcc pat (pat ++ r) = r := by
  obtain ⟨a, pt, rfl⟩ : ∃ a pt, pat = a :: pt := by
    cases pat with
    | nil => exact absurd rfl hp
    | cons a pt => exact ⟨a, pt, rfl⟩
  show deleteOccAux (a :: pt) ((a :: pt) ++ r).length ((a :: pt) ++ r) = r
  have hpre : (a :: pt).isPrefixOf ((a :: pt) ++ r) = true := by
    rw [List.isPrefixOf_iff_prefix]
    exact List.prefix_append _ r
  simp only [List.cons_append, List.length_cons, List.length_append,
    deleteOccAux, hpre, Bool.and_true, List.cons_ne_self]
  rw [if_pos (by simp)]
  rw [List.drop_succ_cons]
  show deleteOccAux (a :: pt) (pt ++ r).length
    (List.drop pt.length (pt ++ r)) = r
  rw [List.drop_left]
  exact deleteOccAux_no_occ (a :: pt) r _
    (by rw [List.length_append]; omega) h

theorem filterMap_skip_none {a : Type} {b : Type} (fs : List a)
    (c : a → Prop) [DecidablePred c] (g : a → b)
    (h : ∀ f ∈ fs, ¬ c f) :
    (fs.filterMap fun f => if c f then none else some (g f)) = fs.map g := by
  induction fs with
  | nil => rfl
  | cons f fs ih =>
    rw [List.filterMap_cons_some (by rw [if_neg (h f (by simp))]),
      List.map_cons, ih (fun x hx => h x (by simp [hx]))]

theorem flatMap_congr_mem {a : Type} {b : Type} (l : List a)
    (f g : a → List b) (h : ∀ x ∈ l, f x = g x) :
    l.flatMap f = l.flatMap g := by
  induction l with
  | nil => rfl
  | cons x l ih =>
    rw [List.flatMap_cons, List.flatMap_cons, h x (by simp),
      ih (fun y hy => h y (by simp [hy]))]

theorem walkSubdirs_eq_strip (dirpath : String) (l : FSList) (k : Nat) :
    walkSubdirs dirpath l =
      (walkSubdirsD k dirpath l).map fun x => x.2 := by
  induction l generalizing k dirpath with
  | nil => rfl
  | file n d rest ih => exact ih dirpath k
  | dir n cs rest ihcs ihrest =>
    simp only [walkSubdirs, walkSubdirsD, List.map_cons, List.map_append]
    rw [ihcs (joinPath dirpath n) (k + 1), ihrest dirpath k]

theorem walk_eq_strip (dirpath : String) (l : FSList) (k : Nat) :
    walk dirpath l = (walkD k dirpath l).map fun x => x.2 := by
  simp only [walk, walkD, List.map_cons]
  rw [walkSubdirs_eq_strip dirpath l k]

theorem mem_of_getLast?_eq {l : List Char} {x : Char}
    (h : l.getLast? = some x) : x ∈ l := by
  have hm := List.mem_getLast?_eq_getLast (l := l) (x := x) (by rw [h]; rfl)
  obtain ⟨hne, rfl⟩ := hm
  exact List.getLast_mem hne

theorem nameOk_spec (n : String) (h : nameOk n = true) :
    n.toList ≠ [] ∧ ('/' : Char) ∉ n.toList := by
  simp only [nameOk, Bool.and_eq_true, Bool.not_eq_true'] at h
  constructor
  · intro hcon
    rw [hcon] at h
    simp at h
  · intro hcon
    have hc : n.toList.contains '/' = true := by
      exact List.elem_iff.mpr hcon
    rw [hc] at h
    simp at h

theorem joinPath_good (p n : String)
    (hp : p.toList ≠ [] ∧ p.toList.getLast? ≠ some '/')
    (hn : nameOk n = true) :
    joinPath p n = p ++ "/" ++ n := by
  obtain ⟨hn0, hns⟩ := nameOk_spec n hn
  unfold joinPath
  split_ifs with h1 h2
  · exfalso
    apply hns
    cases hnl : n.toList with
    | nil => exact absurd hnl hn0
    | cons c t =>
      rw [hnl, List.take_succ_cons, List.take_zero] at h1
      have hce : c = '/' := by injection h1
      subst hce
      simp
  · simp only [Bool.or_eq_true, decide_eq_true_eq] at h2
    rcases h2 with h2 | h2
    · exact absurd h2 hp.1
    · exact absurd h2 hp.2
  · rfl

theorem good_extend (p n : String) (hn : nameOk n = true) :
    (p ++ "/" ++ n).toList ≠ [] ∧
    (p ++ "/" ++ n).toList.getLast? ≠ some '/' := by
  obtain ⟨hn0, hns⟩ := nameOk_spec n hn
  have htl : (p ++ "/" ++ n).toList = p.toList ++ '/' :: n.toList := by
    rw [str_toList_append, str_toList_append, List.append_assoc]
    rfl
  constructor
  · rw [htl]
    simp
  · rw [htl, List.getLast?_append_cons]
    intro hcon
    cases hnl : n.toList with
    | nil => exact hn0 hnl
    | cons c t =>
      rw [hnl, List.getLast?_cons_cons] at hcon
      exact hns (by rw [hnl]; exact mem_of_getLast?_eq hcon)

theorem relString_cons (n : String) (comps : List String) :
    relString (n :: comps) = ("/" ++ n) ++ relString comps := rfl

theorem relString_count (comps : List String)
    (h : ∀ c ∈ comps, nameOk c = true) :
    (relString comps).toList.count '/' = comps.length := by
  induction comps with
  | nil => rfl
  | cons n cs ih =>
    obtain ⟨hn0, hns⟩ := nameOk_spec n (h n (by simp))
    rw [relString_cons, str_toList_append, str_toList_append,
      List.count_append, List.count_append,
      ih (fun c hc => h c (by simp [hc]))]
    have h1 : ("/" : String).toList.count '/' = 1 := rfl
    have h2 : n.toList.count '/' = 0 := List.count_eq_zero.mpr hns
    rw [h1, h2, List.length_cons]
    omega

theorem walkSubdirsD_shape (l : FSList) :
    ∀ (k : Nat) (p : String),
    p.toList ≠ [] ∧ p.toList.getLast? ≠ some '/' →
    wfNames l = true →
    ∀ x ∈ walkSubdirsD k p l, ∃ comps : List String,
      (∀ c ∈ comps, nameOk c = true) ∧
      x.1 = k + comps.length ∧
      x.2.1 = p ++ relString comps := by
  induction l with
  | nil =>
    intro k p _ _ x hx
    simp [walkSubdirsD] at hx
  | file n d rest ih =>
    intro k p hp hwf x hx
    simp only [wfNames, Bool.and_eq_true] at hwf
    exact ih k p hp hwf.2 x hx
  | dir n cs rest ihcs ihrest =>
    intro k p hp hwf x hx
    simp only [wfNames, Bool.and_eq_true] at hwf
    obtain ⟨⟨hn, hwfcs⟩, hwfrest⟩ := hwf
    simp only [walkSubdirsD, List.mem_cons, List.mem_append] at hx
    rcases hx with hx0 | hx1 | hx2
    · subst hx0
      refine ⟨[n], by simp [hn], by simp, ?_⟩
      rw [joinPath_good p n hp hn, relString_cons,
        show relString [] = "" from rfl, String.append_empty,
        String.append_assoc]
    · have hjoin := joinPath_good p n hp hn
      have hgood : (joinPath p n).toList ≠ [] ∧
          (joinPath p n).toList.getLast? ≠ some '/' := by
        rw [hjoin]
        exact good_extend p n hn
      obtain ⟨comps, hcompok, hdepth, hpath⟩ :=
        ihcs (k + 1) (joinPath p n) hgood hwfcs x hx1
      refine ⟨n :: comps, ?_, ?_, ?_⟩
      · intro c hc
        rcases List.mem_cons.mp hc with hc | hc
        · rw [hc]; exact hn
        · exact hcompok c hc
      · rw [hdepth, List.length_cons]
        omega
      · rw [hpath, hjoin, relString_cons]
        simp [String.append_assoc]
    · exact ihrest k p hp hwfrest x hx2

/-! ## Claim C8 -/

/-- C8 (amended): the tree text is one header line per visited directory
followed by one line per file, in walk order, joined by newlines with a
trailing newline — but the indent count is the number of separators left
after DELETING EVERY OCCURRENCE of the root path string from the
directory path (`dirpath.replace(root_dir, "")`), and the file whose
joined path equals the artifact path is skipped.  Whenever the root
string reappears nowhere past each dirpath's leading copy, and the
artifact path is not among the walked files, the produced text is
exactly the depth-indented rendering the claim describes
(`claimTree`). -/
theorem c8_amended (root_dir output_file : String) (children : FSList)
    (hroot : root_dir.toList ≠ [] ∧ root_dir.toList.getLast? ≠ some '/')
    (hwf : wfNames children = true)
    (hocc : ∀ e ∈ walk root_dir children,
      hasOcc root_dir.toList
        ((e : String × List (String × FileData)).1.toList.drop
          root_dir.toList.length) = false)
    (hout : ∀ e ∈ walk root_dir children,
      ∀ f ∈ (e : String × List (String × FileData)).2,
      joinPath e.1 f.1 ≠ output_file) :
    get_directory_tree root_dir output_file children =
      claimTree root_dir children := by
  unfold get_directory_tree claimTree
  rw [walk_eq_strip root_dir children 0, List.flatMap_map]
  refine congrArg (fun ls => String.intercalate "\n" ls ++ "\n") ?_
  apply flatMap_congr_mem
  intro x hx
  have hmem : x.2 ∈ walk root_dir children := by
    rw [walk_eq_strip root_dir children 0]
    exact List.mem_map_of_mem _ hx
  have hlevel : (deleteOcc root_dir.toList x.2.1.toList).count '/' = x.1 := by
    rcases List.mem_cons.mp hx with hx0 | hxs
    · subst hx0
      have h := deleteOcc_self_append root_dir.toList [] hroot.1
        (hasOcc_nil_of_ne _ hroot.1)
      rw [List.append_nil] at h
      show (deleteOcc root_dir.toList root_dir.toList).count '/' = 0
      rw [h]
      rfl
    · obtain ⟨comps, hok, hdepth, hpath⟩ :=
        walkSubdirsD_shape children 0 root_dir hroot hwf x hxs
      have hocc2 : hasOcc root_dir.toList (relString comps).toList =
          false := by
        have h := hocc x.2 hmem
        rw [hpath, str_toList_append, List.drop_left] at h
        exact h
      rw [hpath, str_toList_append,
        deleteOcc_self_append _ _ hroot.1 hocc2,
        relString_count comps hok, hdepth]
      omega
  have hfiles := filterMap_skip_none x.2.2
    (fun f => joinPath x.2.1 f.1 = output_file)
    (fun f => String.join (List.replicate (x.1 + 1) "│   ") ++ "├── " ++
      f.1)
    (hout x.2 hmem)
  simp only [hlevel, hfiles]

/-- C8: the claim says the indent of each tree line is `"│   "`
repeated by NESTING DEPTH.  The code computes the repeat count from
`dirpath.replace(root_dir, "")`, which deletes every occurrence of the
root string: for the root `/p` containing a subdirectory also named `p`,
the subdirectory's path `/p/p` collapses to `""`, so its line is printed
with no indent at all, where the depth-indented rendering the claim
describes would indent it once — the two texts differ. -/
theorem c8_counterexample :
    get_directory_tree "/p" "/p/out.txt" (.dir "p" .nil .nil) =
      "├── p/\n├── p/\n" ∧
    claimTree "/p" (.dir "p" .nil .nil) = "├── p/\n│   ├── p/\n" ∧
    get_directory_tree "/p" "/p/out.txt" (.dir "p" .nil .nil) ≠
      claimTree "/p" (.dir "p" .nil .nil) :=
  ⟨rfl, rfl, by decide⟩

/-- C8 (amended) at a concrete input: for a root whose path string never
reappears below it and an artifact path outside the walk, the emitted
tree is exactly the depth-indented rendering. -/
theorem c8_amended_witness :
    get_directory_tree "/r/proj" "/r/proj/out.txt" fsNested =
      claimTree "/r/proj" fsNested :=
  c8_amended "/r/proj" "/r/proj/out.txt" fsNested (by decide) (by decide)
    (by decide) (by decide)

end ProjectExporter
